import Mathlib

/-!
# Verification of the Yonder→YNAB transaction import pipeline

Shallow embedding of the core pipeline of `src/lib.rs`:

* `YonderTransaction` — one decoded CSV row (`struct YonderTransaction`);
* the mapping `From<YonderTransaction> for NewTransaction` — sign/unit
  normalization, date derivation, dedup-key (`import_id`) construction;
* the CSV decoder `import_yonder_csv_to_ynab`'s collect-to-single-Result
  semantics (`csv::Reader::into_deserialize().collect::<Result<_,_>>()`);
* the response interpretation into `DocumentResult` and its `Display`;
* the webhook authentication guard `on_webhook_import`.

Modelling conventions:

* Source amounts carry two implied fractional digits (spec §3); the
  embedding represents `amount_gbp` as an integer count of hundredths
  (`amount_gbp` in the embedding = 100 × the decimal source value), and the
  exact-rational value of a row's amount is `amount_gbp / 100 : ℚ`.
  The Rust field is an `f64`; binary64 rounding is outside the rational
  embedding and is treated separately where a claim turns on it.
* Rust's `{}` (`Display`) rendering of an `i64`/`u64` is embedded as plain
  decimal notation (`fmtInt`/`fmtNat` below).  `Display` of an `f64`
  holding a two-fractional-digit decimal value prints the shortest decimal
  that round-trips, which for such values is the minimal decimal form
  (trailing fractional zeros dropped, `3.00 ↦ "3"`, `3.10 ↦ "3.1"`);
  this is embedded as `fmtCents`.
* Strings are manipulated as `List Char` and packed with `String.mk`
  at the boundary.
-/

/-! ## Decimal rendering of numbers (embeds Rust `Display` for integers) -/

/-- The decimal digit character for `d < 10` (junk for `d ≥ 10`). -/
def digitChar (d : ℕ) : Char :=
  match d with
  | 0 => '0' | 1 => '1' | 2 => '2' | 3 => '3' | 4 => '4'
  | 5 => '5' | 6 => '6' | 7 => '7' | 8 => '8' | _ => '9'

/-- Numeric value of a digit character. -/
def digitVal (c : Char) : ℕ := c.toNat - 48

/-- Fuel-indexed most-significant-first decimal digits of `n`
(the fuel only bounds recursion depth; `fuel > n` is always enough). -/
def natCharsAux : ℕ → ℕ → List Char
  | 0, _ => []
  | fuel + 1, n =>
    if n < 10 then [digitChar n]
    else natCharsAux fuel (n / 10) ++ [digitChar (n % 10)]

/-- Decimal rendering of a natural number, as Rust `Display` prints it. -/
def fmtNat (n : ℕ) : List Char := natCharsAux (n + 1) n

/-- Decimal rendering of an integer, as Rust `Display` prints an `i64`. -/
def fmtInt (i : ℤ) : List Char :=
  (if i < 0 then ['-'] else []) ++ fmtNat i.natAbs

/-- Reads a most-significant-first digit list back into a number. -/
def parseNatChars (l : List Char) : ℕ :=
  l.foldl (fun a c => a * 10 + digitVal c) 0

/-! ## Rendering a two-fractional-digit amount (embeds Rust `Display` for the
`f64` field `amount_gbp`, whose value is `cents / 100`): the shortest
round-tripping decimal, i.e. the minimal decimal form. -/

/-- Minimal decimal form of `n / 100` for `n : ℕ`:
integer part, then a fractional part of zero, one or two digits
(`300 ↦ "3"`, `310 ↦ "3.1"`, `314 ↦ "3.14"`, `7 ↦ "0.07"`). -/
def fmtCentsNat (n : ℕ) : List Char :=
  if n % 100 = 0 then fmtNat (n / 100)
  else if n % 10 = 0 then fmtNat (n / 100) ++ ['.', digitChar (n % 100 / 10)]
  else fmtNat (n / 100) ++ ['.', digitChar (n % 100 / 10), digitChar (n % 10)]

/-- Minimal decimal form of `c / 100` for `c : ℤ`
(how Rust `Display` prints the `f64` holding that value). -/
def fmtCents (c : ℤ) : List Char :=
  (if c < 0 then ['-'] else []) ++ fmtCentsNat c.natAbs

/-! ## Naive civil date-times (embeds `chrono::NaiveDateTime`)

`chrono` stores a civil date plus a time of day with nanosecond precision.
`and_utc()` attaches offset 0, so `and_utc().date_naive()` is the civil date
unchanged, and `and_utc().timestamp_millis()` is the Unix epoch value of the
civil fields computed with the proleptic Gregorian calendar. -/

/-- Civil calendar date (embeds `chrono::NaiveDate` after `date_naive()`). -/
structure NaiveDate where
  year : ℤ
  month : ℕ
  day : ℕ
deriving DecidableEq, Repr

/-- Civil date-time without timezone (embeds `chrono::NaiveDateTime`). -/
structure NaiveDateTime where
  year : ℤ
  month : ℕ
  day : ℕ
  hour : ℕ
  minute : ℕ
  second : ℕ
  /-- nanoseconds within the second, `< 10^9` for valid values -/
  nano : ℕ
deriving DecidableEq, Repr

/-- Days from the Unix epoch of a proleptic-Gregorian civil date
(the standard days-from-civil algorithm; what `chrono` computes for
`NaiveDate::from_ymd(..).num_days_from_ce()`-style conversions). -/
def daysFromCivil (y : ℤ) (m d : ℕ) : ℤ :=
  let y' : ℤ := if m ≤ 2 then y - 1 else y
  let era : ℤ := Int.fdiv y' 400
  let yoe : ℕ := (y' - era * 400).toNat
  let mp : ℕ := (m + 9) % 12
  let doy : ℕ := (153 * mp + 2) / 5 + (d - 1)
  let doe : ℕ := yoe * 365 + yoe / 4 - yoe / 100 + doy
  era * 146097 + (doe : ℤ) - 719468

/-- Unix seconds of the civil date-time read as UTC
(embeds `and_utc().timestamp()`). -/
def NaiveDateTime.timestamp (t : NaiveDateTime) : ℤ :=
  daysFromCivil t.year t.month t.day * 86400
    + (t.hour * 3600 + t.minute * 60 + t.second)

/-- Unix milliseconds of the civil date-time read as UTC
(embeds `and_utc().timestamp_millis()`: whole-second part times 1000 plus
the millisecond part of the sub-second nanoseconds). -/
def NaiveDateTime.timestampMillis (t : NaiveDateTime) : ℤ :=
  t.timestamp * 1000 + (t.nano / 1000000 : ℕ)

/-- The civil date of the date-time read as UTC
(embeds `and_utc().date_naive()`: offset 0 leaves the civil date unchanged). -/
def NaiveDateTime.dateNaive (t : NaiveDateTime) : NaiveDate :=
  ⟨t.year, t.month, t.day⟩

/-! ## The data model (embeds the Rust structs of `src/lib.rs`) -/

/-- Embeds `enum YonderTransactionKind { Debit, Credit }`. -/
inductive YonderTransactionKind where
  | Debit
  | Credit
deriving DecidableEq, Repr

/-- Embeds `struct YonderTransaction` (one decoded CSV row).

The Rust `amount_gbp`/`amount_charged` fields are `f64` values carrying a
decimal with two implied fractional digits (spec §3); they are embedded as
integer counts of hundredths, so the decimal source value is the rational
`amount_gbp / 100`. -/
structure YonderTransaction where
  date_time : NaiveDateTime
  description : String
  amount_gbp : ℤ
  amount_charged : ℤ
  currency : String
  category : String
  kind : YonderTransactionKind
  country : String
deriving DecidableEq, Repr

/-- Embeds the generated `TransactionClearedStatus`. -/
inductive TransactionClearedStatus where
  | Cleared
  | Uncleared
  | Reconciled
deriving DecidableEq, Repr

/-- Embeds the generated `NewTransaction` of the YNAB client (the fields the
pipeline uses; string-typed identifiers are embedded as plain strings). -/
structure NewTransaction where
  account_id : Option String
  amount : Option ℤ
  approved : Option Bool
  category_id : Option String
  cleared : Option TransactionClearedStatus
  date : Option NaiveDate
  flag_color : Option String
  import_id : Option String
  memo : Option String
  payee_id : Option String
  payee_name : Option String
  subtransactions : List Unit
deriving DecidableEq, Repr

/-! ## The record mapper (embeds `impl From<YonderTransaction> for NewTransaction`) -/

/-- The signed decimal amount: `match value.kind { Debit => -value.amount_gbp,
Credit => value.amount_gbp }`, as an exact rational. -/
def signedGbp (t : YonderTransaction) : ℚ :=
  match t.kind with
  | .Debit => -((t.amount_gbp : ℚ) / 100)
  | .Credit => (t.amount_gbp : ℚ) / 100

/-- Truncation toward zero of a rational to an integer
(embeds Rust's float-to-integer cast `as i64`). -/
def ratTruncToInt (q : ℚ) : ℤ := Int.tdiv q.num q.den

/-- The mapped minor-unit amount: `(signed * 1000.0) as i64`
computed on the exact rational value. -/
def mappedAmount (t : YonderTransaction) : ℤ :=
  ratTruncToInt (signedGbp t * 1000)

/-- The dedup key characters: `format!("TG:{}:{}", value.amount_gbp,
value.date_time.and_utc().timestamp_millis())`. -/
def yonderImportIdChars (t : YonderTransaction) : List Char :=
  'T' :: 'G' :: ':' :: (fmtCents t.amount_gbp ++ ':' :: fmtInt t.date_time.timestampMillis)

/-- The dedup key as a string. -/
def yonderImportId (t : YonderTransaction) : String :=
  String.mk (yonderImportIdChars t)

/-- Embeds `From<YonderTransaction> for NewTransaction`. -/
def NewTransaction.fromYonder (t : YonderTransaction) : NewTransaction where
  account_id := none
  amount := some (mappedAmount t)
  approved := none
  category_id := none
  cleared := some .Cleared
  date := some t.date_time.dateNaive
  flag_color := none
  import_id := some (yonderImportId t)
  memo := none
  payee_id := none
  payee_name := some t.description
  subtransactions := []

/-- Modelled from the spec: the generated YNAB client's string newtypes for
`import_id` and `payee_name` are produced from `ynab_openapi.yml`, which is
not among the sources; the spec (§4.2) describes the mapper as a pure
function with no failure path, so the `.parse()` conversion the mapper
`unwrap`s is embedded as infallible. -/
def parseLedgerString (s : String) : Option String := some s

/-- The mapper with its two `.parse().unwrap()` steps made explicit as
fallible steps (`From<YonderTransaction> for NewTransaction`, fallibility
surfaced instead of unwrapped). -/
def NewTransaction.fromYonderChecked (t : YonderTransaction) : Option NewTransaction := do
  let importId ← parseLedgerString (yonderImportId t)
  let payee ← parseLedgerString t.description
  pure
    { account_id := none
      amount := some (mappedAmount t)
      approved := none
      category_id := none
      cleared := some .Cleared
      date := some t.date_time.dateNaive
      flag_color := none
      import_id := some importId
      memo := none
      payee_id := none
      payee_name := some payee
      subtransactions := [] }

/-- Embeds the account-injection closure of `import_yonder_csv_to_ynab`:
`transaction.account_id = Some(config.ynab_account_id)`. -/
def NewTransaction.withAccount (n : NewTransaction) (acc : String) : NewTransaction :=
  { n with account_id := some acc }

/-! ## The CSV decoder

Embeds the decode step of `import_yonder_csv_to_ynab`:
`csv::Reader::from_reader(..).into_deserialize().collect::<Result<Vec<_>,_>>()`.

The byte stream is modelled after CSV framing as a list of records, each a
list of field strings, the first record being the header row; `serde`
resolves fields by header name.  The field parsers embed the accepted
grammar on the two-fractional-digit domain of the source export (the `f64`
field parser of `serde` accepts further floating-point forms, which are
outside the rational embedding). -/

def isDigitChar (c : Char) : Bool := 48 ≤ c.toNat && c.toNat ≤ 57

/-- Parses a decimal amount with an optional sign and an optional fractional
part of one or two digits into a count of hundredths
(the embedding of the `f64` field parse for source amounts). -/
def parseCents (l : List Char) : Option ℤ :=
  let (negative, l) := match l with
    | '-' :: rest => (true, rest)
    | _ => (false, l)
  let intDigits := l.takeWhile isDigitChar
  let rest := l.dropWhile isDigitChar
  if intDigits = [] then none
  else
    let intPart : ℕ := parseNatChars intDigits
    let cents? : Option ℕ :=
      match rest with
      | [] => some (intPart * 100)
      | '.' :: fr =>
        match fr with
        | [d] => if isDigitChar d then some (intPart * 100 + digitVal d * 10) else none
        | [d₁, d₂] =>
          if isDigitChar d₁ && isDigitChar d₂ then
            some (intPart * 100 + digitVal d₁ * 10 + digitVal d₂)
          else none
        | _ => none
      | _ => none
    cents?.map (fun c => if negative then -(c : ℤ) else (c : ℤ))

/-- Parses `Debit` / `Credit` (embeds the `serde` enum parse, case-sensitive). -/
def parseKind (s : String) : Option YonderTransactionKind :=
  if s = "Debit" then some .Debit
  else if s = "Credit" then some .Credit
  else none

def parseTwoDigits (l : List Char) : Option (ℕ × List Char) :=
  match l with
  | c₁ :: c₂ :: rest =>
    if isDigitChar c₁ && isDigitChar c₂ then
      some (digitVal c₁ * 10 + digitVal c₂, rest)
    else none
  | _ => none

def isLeapYear (y : ℤ) : Bool := (y % 4 = 0 && y % 100 ≠ 0) || y % 400 = 0

def daysInMonth (y : ℤ) (m : ℕ) : ℕ :=
  match m with
  | 1 => 31 | 2 => if isLeapYear y then 29 else 28 | 3 => 31
  | 4 => 30 | 5 => 31 | 6 => 30 | 7 => 31 | 8 => 31
  | 9 => 30 | 10 => 31 | 11 => 30 | 12 => 31
  | _ => 0

/-- Parses a naive ISO-8601 timestamp `YYYY-MM-DDTHH:MM:SS[.frac]` with no
offset, validating field ranges (embeds `chrono`'s `NaiveDateTime` `FromStr`
on the forms the source export emits). -/
def parseTimestamp (l : List Char) : Option NaiveDateTime := do
  let (negative, l) := match l with
    | '-' :: rest => (true, rest)
    | _ => (false, l)
  let yearDigits := l.takeWhile isDigitChar
  let l := l.dropWhile isDigitChar
  if yearDigits.length < 4 then none
  else
    let year : ℤ := (if negative then -1 else 1) * (parseNatChars yearDigits : ℤ)
    match l with
    | '-' :: l => do
      let (month, l) ← parseTwoDigits l
      match l with
      | '-' :: l => do
        let (day, l) ← parseTwoDigits l
        match l with
        | 'T' :: l => do
          let (hour, l) ← parseTwoDigits l
          match l with
          | ':' :: l => do
            let (minute, l) ← parseTwoDigits l
            match l with
            | ':' :: l => do
              let (second, l) ← parseTwoDigits l
              let nano? : Option ℕ :=
                match l with
                | [] => some 0
                | '.' :: fr =>
                  if fr ≠ [] ∧ fr.length ≤ 9 ∧ fr.all isDigitChar then
                    some (parseNatChars fr * 10 ^ (9 - fr.length))
                  else none
                | _ => none
              let nano ← nano?
              if 1 ≤ month ∧ month ≤ 12 ∧ 1 ≤ day ∧ day ≤ daysInMonth year month
                  ∧ hour < 24 ∧ minute < 60 ∧ second < 60 then
                some ⟨year, month, day, hour, minute, second, nano⟩
              else none
            | _ => none
          | _ => none
        | _ => none
      | _ => none
    | _ => none

/-- Field access by header name (embeds `serde`'s by-name field resolution
over the header row; a header missing the name, or a row too short, yields
a missing-field error). -/
def getField (hdr row : List String) (name : String) : Except String String :=
  match row[hdr.indexOf name]? with
  | some v => Except.ok v
  | none => Except.error ("missing field " ++ name)

def liftParse {α : Type} (err : String) : Option α → Except String α
  | some a => Except.ok a
  | none => Except.error err

/-- Parses one data row against the header (embeds one
`into_deserialize::<YonderTransaction>()` item: the column-count check of the
`csv` crate, then the per-field `serde` parses). -/
def parseRow (hdr row : List String) : Except String YonderTransaction :=
  if row.length ≠ hdr.length then
    Except.error "found record with unequal number of fields"
  else do
    let dtS ← getField hdr row "Date/Time of transaction"
    let desc ← getField hdr row "Description"
    let amtS ← getField hdr row "Amount (GBP)"
    let amtChS ← getField hdr row "Amount (in Charged Currency)"
    let cur ← getField hdr row "Currency"
    let cat ← getField hdr row "Category"
    let kindS ← getField hdr row "Debit or Credit"
    let country ← getField hdr row "Country"
    let dt ← liftParse ("invalid datetime: " ++ dtS) (parseTimestamp dtS.data)
    let amt ← liftParse ("invalid float: " ++ amtS) (parseCents amtS.data)
    let amtCh ← liftParse ("invalid float: " ++ amtChS) (parseCents amtChS.data)
    let kind ← liftParse ("unknown variant: " ++ kindS) (parseKind kindS)
    Except.ok
      { date_time := dt
        description := desc
        amount_gbp := amt
        amount_charged := amtCh
        currency := cur
        category := cat
        kind := kind
        country := country }

/-- Embeds Rust's `collect::<Result<Vec<_>, _>>()`: the first error aborts
the whole collection; otherwise all items are kept in order. -/
def collectResults {ε α : Type} : List (Except ε α) → Except ε (List α)
  | [] => Except.ok []
  | x :: xs =>
    match x with
    | .error e => .error e
    | .ok a =>
      match collectResults xs with
      | .error e => .error e
      | .ok l => .ok (a :: l)

/-- The decode stage of `import_yonder_csv_to_ynab`: header row first, then
each data row parsed and the per-row results collected into a single
`Result` (empty input yields zero records). -/
def decodeYonderCsv (lines : List (List String)) : Except String (List YonderTransaction) :=
  match lines with
  | [] => .ok []
  | hdr :: rows => collectResults (rows.map (parseRow hdr))

/-! ## Response interpretation and the result summary -/

/-- The part of the YNAB bulk-create response body that the pipeline reads
(embeds the generated `SaveTransactionsResponseData`: the lists of newly
created transaction IDs and of duplicate import IDs). -/
structure SaveTransactionsResponseData where
  transaction_ids : List String
  duplicate_import_ids : List String
deriving DecidableEq, Repr

/-- Embeds `struct DocumentResult { imported: usize, duplicates: usize }`. -/
structure DocumentResult where
  imported : ℕ
  duplicates : ℕ
deriving DecidableEq, Repr

/-- Embeds `impl Display for DocumentResult`:
`write!(f, "Imported new transactions: {}\nSkipped duplicate transactions: {}",
self.imported, self.duplicates)`. -/
def DocumentResult.display (r : DocumentResult) : String :=
  "Imported new transactions: " ++ String.mk (fmtNat r.imported)
    ++ "\nSkipped duplicate transactions: " ++ String.mk (fmtNat r.duplicates)

/-- The response interpretation of `import_yonder_csv_to_ynab`:
`DocumentResult { imported: ynab_response.data.transaction_ids.len(),
duplicates: ynab_response.data.duplicate_import_ids.len() }`. -/
def documentResultOfResponse (d : SaveTransactionsResponseData) : DocumentResult :=
  ⟨d.transaction_ids.length, d.duplicate_import_ids.length⟩

/-- Read-only configuration, with the option structure of the fields as
`src/lib.rs` uses them (`tg_api_key`/`webhook_api_key` accessed through
`as_deref()` on an `Option`; `src/config.rs` shows an older mandatory-field
variant, but the claim's source is `lib.rs`). -/
structure Config where
  tg_api_key : Option String
  ynab_api_key : String
  ynab_budget_id : String
  ynab_account_id : String
  webhook_api_key : Option String

/-- Embeds `import_yonder_csv_to_ynab`: decode the CSV, map each row and
inject the account ID, submit the batch through the provided bulk-create
call (the network exchange abstracted as a function that either fails with
the remote error text or returns the response data), and read off the
counts. -/
def importYonderCsvToYnab (lines : List (List String)) (config : Config)
    (submit : List NewTransaction → Except String SaveTransactionsResponseData) :
    Except String DocumentResult :=
  match decodeYonderCsv lines with
  | .error e => .error ("failed to deserialize as Yonder transactions CSV: " ++ e)
  | .ok yonderTransactions =>
    let ynabTransactions := yonderTransactions.map
      (fun t => (NewTransaction.fromYonder t).withAccount config.ynab_account_id)
    match submit ynabTransactions with
    | .error e => .error e
    | .ok resp => .ok (documentResultOfResponse resp)

/-! ## The webhook entry point (embeds `on_webhook_import`) -/

/-- The response value of the worker (embeds `Response::error(msg, status)`
and `Response::from_json(json!({"message": msg}))`). -/
inductive WebhookResponse where
  | errorText (msg : String) (status : ℕ)
  | jsonMessage (msg : String)
deriving DecidableEq, Repr

/-- Embeds `on_webhook_import` together with an explicit trace of the two
effects the claim is about: whether the request body was read
(`req.bytes()`) and whether the import pipeline was invoked.  Returns
(response, bodyRead, pipelineInvoked); the guard clauses return before
either effect, so both flags are `false` on the two 401 paths. -/
def on_webhook_import (config : Config) (api_key : Option String)
    (body : List (List String))
    (submit : List NewTransaction → Except String SaveTransactionsResponseData) :
    WebhookResponse × Bool × Bool :=
  match config.webhook_api_key with
  | none => (.errorText "Webhook API key is not set" 401, false, false)
  | some webhookApiKey =>
    if api_key ≠ some webhookApiKey then
      (.errorText "Invalid API key" 401, false, false)
    else
      match importYonderCsvToYnab body config submit with
      | .ok result => (.jsonMessage result.display, true, true)
      | .error e => (.errorText e 500, true, true)

/-! ## Concrete fixtures and evaluation helpers -/

instance {ε α : Type} [DecidableEq ε] [DecidableEq α] : DecidableEq (Except ε α) :=
  fun x y =>
    match x, y with
    | .error a, .error b =>
      if h : a = b then isTrue (by rw [h]) else isFalse (by intro hh; cases hh; exact h rfl)
    | .ok a, .ok b =>
      if h : a = b then isTrue (by rw [h]) else isFalse (by intro hh; cases hh; exact h rfl)
    | .error _, .ok _ => isFalse (by intro hh; cases hh)
    | .ok _, .error _ => isFalse (by intro hh; cases hh)

/-- The header row of the Yonder export (spec §6 and `yonder.csv`). -/
def yonderHeader : List String :=
  ["Date/Time of transaction", "Description", "Amount (GBP)",
   "Amount (in Charged Currency)", "Currency", "Category", "Debit or Credit",
   "Country"]

/-- The test fixture row of `yonder.csv` / `test_parse_yonder`. -/
def tflRowFields : List String :=
  ["2026-01-01T10:34:50.211697", "TFL - Transport for London", "3.00", "3.00",
   "GBP", "Transport", "Debit", "GBR"]

/-- The decoded test fixture row (amount 3.00 = 300 hundredths). -/
def tflRow : YonderTransaction where
  date_time := ⟨2026, 1, 1, 10, 34, 50, 211697000⟩
  description := "TFL - Transport for London"
  amount_gbp := 300
  amount_charged := 300
  currency := "GBP"
  category := "Transport"
  kind := .Debit
  country := "GBR"

/-- The fixture row with its timestamp one microsecond later: a distinct
instant with the same millisecond value. -/
def tflRowMicro : YonderTransaction :=
  { tflRow with date_time := ⟨2026, 1, 1, 10, 34, 50, 211698000⟩ }

/-- A decodable row whose amount `1000000000000000000000000000000.00`
(10^30 pounds) renders to 31 characters. -/
def bigRowFields : List String :=
  ["2026-01-01T10:34:50.211697", "big", "1000000000000000000000000000000.00",
   "3.00", "GBP", "Other", "Debit", "GBR"]

/-- The decoded form of `bigRowFields` (10^32 hundredths). -/
def bigRow : YonderTransaction where
  date_time := ⟨2026, 1, 1, 10, 34, 50, 211697000⟩
  description := "big"
  amount_gbp := 10 ^ 32
  amount_charged := 300
  currency := "GBP"
  category := "Other"
  kind := .Debit
  country := "GBR"

/-- A row whose direction field is misspelled, failing the enum parse. -/
def badKindRowFields : List String :=
  ["2026-01-01T10:34:50.211697", "x", "3.00", "3.00",
   "GBP", "Transport", "Dbit", "GBR"]

/-- A row with the source amount 2.01, direction Credit. -/
def row201 : YonderTransaction where
  date_time := ⟨2026, 1, 1, 10, 34, 50, 211697000⟩
  description := "x"
  amount_gbp := 201
  amount_charged := 201
  currency := "GBP"
  category := "Other"
  kind := .Credit
  country := "GBR"

/-- The binary64 floating-point value nearest to 2.01
(mantissa 1131529406376837, exponent −49; certified as correctly rounded by
the half-ulp bound in the theorem using it). -/
def f64Of201 : ℚ := 1131529406376837 / 2 ^ 49

/-- Round-to-nearest onto the grid of multiples of `2^(-k)` — the binary64
rounding of a product whose magnitude lies in a binade with ulp `2^(-k)`
(the value at stake is not at a tie, so the tie-breaking rule is moot). -/
def roundF64Grid (k : ℕ) (q : ℚ) : ℚ := ((round (q * 2 ^ k) : ℤ) : ℚ) / 2 ^ k

/-- A configuration with no webhook API key set. -/
def cfgNoKey : Config := ⟨none, "ynab-key", "last-used", "acct", none⟩

/-- A configuration with the webhook API key set to `"k"`. -/
def cfgWithKey : Config := ⟨none, "ynab-key", "last-used", "acct", some "k"⟩

/-- A bulk-create exchange whose response reports one created transaction ID
and one duplicate import ID. -/
def submitOneDup : List NewTransaction → Except String SaveTransactionsResponseData :=
  fun _ => .ok ⟨["t1"], ["d1"]⟩

theorem digitVal_digitChar {d : ℕ} (hd : d < 10) : digitVal (digitChar d) = d := by
  interval_cases d <;> rfl

theorem digitChar_mem_range {d : ℕ} :
    48 ≤ (digitChar d).toNat ∧ (digitChar d).toNat ≤ 57 := by
  unfold digitChar
  split <;> simp

theorem parseNatChars_append (l : List Char) (c : Char) :
    parseNatChars (l ++ [c]) = parseNatChars l * 10 + digitVal c := by
  simp [parseNatChars, List.foldl_append]

theorem parseNatChars_natCharsAux {fuel n : ℕ} (h : n < fuel) :
    parseNatChars (natCharsAux fuel n) = n := by
  induction fuel generalizing n with
  | zero => omega
  | succ f ih =>
    rw [natCharsAux]
    by_cases h10 : n < 10
    · simp only [if_pos h10]
      simp [parseNatChars, digitVal_digitChar h10]
    · simp only [if_neg h10]
      rw [parseNatChars_append]
      have hdiv : n / 10 < f := by omega
      rw [ih hdiv, digitVal_digitChar (Nat.mod_lt _ (by norm_num))]
      omega

theorem parseNatChars_fmtNat (n : ℕ) : parseNatChars (fmtNat n) = n :=
  parseNatChars_natCharsAux (Nat.lt_succ_self n)

theorem fmtNat_injective : Function.Injective fmtNat := by
  intro a b h
  have := parseNatChars_fmtNat a
  rw [h, parseNatChars_fmtNat] at this
  omega

theorem natCharsAux_ne_nil {fuel n : ℕ} (h : n < fuel) :
    natCharsAux fuel n ≠ [] := by
  cases fuel with
  | zero => omega
  | succ f =>
    rw [natCharsAux]
    by_cases h10 : n < 10
    · simp [h10]
    · simp [h10]

theorem fmtNat_ne_nil (n : ℕ) : fmtNat n ≠ [] :=
  natCharsAux_ne_nil (Nat.lt_succ_self n)

theorem mem_natCharsAux_digit {fuel n : ℕ} {c : Char}
    (hc : c ∈ natCharsAux fuel n) : 48 ≤ c.toNat ∧ c.toNat ≤ 57 := by
  induction fuel generalizing n with
  | zero => simp [natCharsAux] at hc
  | succ f ih =>
    rw [natCharsAux] at hc
    by_cases h10 : n < 10
    · simp only [if_pos h10, List.mem_singleton] at hc
      subst hc; exact digitChar_mem_range
    · simp only [if_neg h10, List.mem_append, List.mem_singleton] at hc
      rcases hc with hc | hc
      · exact ih hc
      · subst hc; exact digitChar_mem_range

theorem mem_fmtNat_digit {n : ℕ} {c : Char} (hc : c ∈ fmtNat n) :
    48 ≤ c.toNat ∧ c.toNat ≤ 57 := mem_natCharsAux_digit hc

theorem colon_not_mem_fmtNat (n : ℕ) : ':' ∉ fmtNat n := by
  intro h
  have := mem_fmtNat_digit h
  revert this; decide

theorem dash_not_mem_fmtNat (n : ℕ) : '-' ∉ fmtNat n := by
  intro h
  have := mem_fmtNat_digit h
  revert this; decide

theorem dot_not_mem_fmtNat (n : ℕ) : '.' ∉ fmtNat n := by
  intro h
  have := mem_fmtNat_digit h
  revert this; decide

theorem fmtInt_injective : Function.Injective fmtInt := by
  intro a b h
  unfold fmtInt at h
  have hha : ∀ m : ℕ, ∀ l, fmtNat m ≠ '-' :: l := by
    intro m l hl
    exact absurd (hl ▸ List.mem_cons_self '-' l) (dash_not_mem_fmtNat m)
  by_cases ha : a < 0 <;> by_cases hb : b < 0
  · simp only [if_pos ha, if_pos hb, List.singleton_append, List.cons.injEq,
      true_and] at h
    have := fmtNat_injective h
    omega
  · simp only [if_pos ha, if_neg hb, List.singleton_append, List.nil_append] at h
    exact absurd h.symm (hha _ _)
  · simp only [if_neg ha, if_pos hb, List.singleton_append, List.nil_append] at h
    exact absurd h (hha _ _)
  · simp only [if_neg ha, if_neg hb, List.nil_append] at h
    have := fmtNat_injective h
    omega

/-- Unique decomposition at a delimiter character absent from the left parts. -/
theorem append_delim_inj {d : Char} {A₁ B₁ A₂ B₂ : List Char}
    (h₁ : d ∉ A₁) (h₂ : d ∉ A₂)
    (h : A₁ ++ d :: B₁ = A₂ ++ d :: B₂) : A₁ = A₂ ∧ B₁ = B₂ := by
  induction A₁ generalizing A₂ with
  | nil =>
    cases A₂ with
    | nil => simpa using h
    | cons a₂ t₂ =>
      simp only [List.nil_append, List.cons_append, List.cons.injEq] at h
      exact absurd (h.1 ▸ List.mem_cons_self a₂ t₂) h₂
  | cons a₁ t₁ ih =>
    cases A₂ with
    | nil =>
      simp only [List.nil_append, List.cons_append, List.cons.injEq] at h
      exact absurd (h.1.symm ▸ List.mem_cons_self a₁ t₁) h₁
    | cons a₂ t₂ =>
      simp only [List.cons_append, List.cons.injEq] at h
      have ht := ih (fun hm => h₁ (List.mem_cons_of_mem _ hm))
        (fun hm => h₂ (List.mem_cons_of_mem _ hm)) h.2
      exact ⟨by rw [h.1, ht.1], ht.2⟩

theorem digitChar_lt_ten_inj {a b : ℕ} (ha : a < 10) (hb : b < 10)
    (h : digitChar a = digitChar b) : a = b := by
  have := digitVal_digitChar ha
  rw [h, digitVal_digitChar hb] at this
  omega

theorem dot_not_mem_fmtCentsNat_frac {n : ℕ} {l : List Char}
    (hl : l = [digitChar (n % 100 / 10)] ∨
          l = [digitChar (n % 100 / 10), digitChar (n % 10)]) : '.' ∉ l := by
  have h1 := @digitChar_mem_range (n % 100 / 10)
  have h2 := @digitChar_mem_range (n % 10)
  rcases hl with hl | hl <;> subst hl <;> intro hm <;>
    simp only [List.mem_singleton, List.mem_cons, List.not_mem_nil, or_false] at hm
  · rw [← hm] at h1; revert h1; decide
  · rcases hm with hm | hm
    · rw [← hm] at h1; revert h1; decide
    · rw [← hm] at h2; revert h2; decide

theorem fmtNat_ne_append_dot (m k : ℕ) (l : List Char) :
    fmtNat m ≠ fmtNat k ++ '.' :: l := by
  intro h
  exact dot_not_mem_fmtNat m
    (h ▸ List.mem_append.mpr (Or.inr (List.mem_cons_self _ _)))

theorem fmtCentsNat_injective : Function.Injective fmtCentsNat := by
  intro a b h
  unfold fmtCentsNat at h
  have hsplit : ∀ {x y : ℕ} {la lb : List Char},
      fmtNat (x / 100) ++ '.' :: la = fmtNat (y / 100) ++ '.' :: lb →
      x / 100 = y / 100 ∧ la = lb := by
    intro x y la lb hh
    have := append_delim_inj (dot_not_mem_fmtNat (x / 100))
      (dot_not_mem_fmtNat (y / 100)) hh
    exact ⟨fmtNat_injective this.1, this.2⟩
  by_cases ha0 : a % 100 = 0 <;> by_cases hb0 : b % 100 = 0
  · rw [if_pos ha0, if_pos hb0] at h
    have := fmtNat_injective h
    omega
  · rw [if_pos ha0, if_neg hb0] at h
    by_cases hb10 : b % 10 = 0
    · rw [if_pos hb10] at h
      exact absurd h (fmtNat_ne_append_dot _ _ _)
    · rw [if_neg hb10] at h
      exact absurd h (fmtNat_ne_append_dot _ _ _)
  · rw [if_neg ha0, if_pos hb0] at h
    by_cases ha10 : a % 10 = 0
    · rw [if_pos ha10] at h
      exact absurd h.symm (fmtNat_ne_append_dot _ _ _)
    · rw [if_neg ha10] at h
      exact absurd h.symm (fmtNat_ne_append_dot _ _ _)
  · rw [if_neg ha0, if_neg hb0] at h
    by_cases ha10 : a % 10 = 0 <;> by_cases hb10 : b % 10 = 0
    · rw [if_pos ha10, if_pos hb10] at h
      obtain ⟨hq, hf⟩ := hsplit h
      simp only [List.cons.injEq, and_true] at hf
      have := digitChar_lt_ten_inj (by omega) (by omega) hf
      omega
    · rw [if_pos ha10, if_neg hb10] at h
      obtain ⟨-, hf⟩ := hsplit h
      simp at hf
    · rw [if_neg ha10, if_pos hb10] at h
      obtain ⟨-, hf⟩ := hsplit h
      simp at hf
    · rw [if_neg ha10, if_neg hb10] at h
      obtain ⟨hq, hf⟩ := hsplit h
      simp only [List.cons.injEq, and_true] at hf
      have h1 := digitChar_lt_ten_inj (a := a % 100 / 10) (b := b % 100 / 10)
        (by omega) (by omega) hf.1
      have h2 := digitChar_lt_ten_inj (a := a % 10) (b := b % 10)
        (by omega) (by omega) hf.2
      omega

theorem dash_not_mem_fmtCentsNat (n : ℕ) : '-' ∉ fmtCentsNat n := by
  unfold fmtCentsNat
  have h1 := @digitChar_mem_range (n % 100 / 10)
  have h2 := @digitChar_mem_range (n % 10)
  split
  · exact dash_not_mem_fmtNat _
  · split <;> intro hm <;>
      rcases List.mem_append.mp hm with hm | hm
    · exact dash_not_mem_fmtNat _ hm
    · simp only [List.mem_cons, List.mem_singleton, List.not_mem_nil, or_false] at hm
      rcases hm with hm | hm
      · exact absurd hm (by decide)
      · rw [← hm] at h1; revert h1; decide
    · exact dash_not_mem_fmtNat _ hm
    · simp only [List.mem_cons, List.not_mem_nil, or_false] at hm
      rcases hm with hm | hm | hm
      · exact absurd hm (by decide)
      · rw [← hm] at h1; revert h1; decide
      · rw [← hm] at h2; revert h2; decide

theorem colon_not_mem_fmtCentsNat (n : ℕ) : ':' ∉ fmtCentsNat n := by
  unfold fmtCentsNat
  have h1 := @digitChar_mem_range (n % 100 / 10)
  have h2 := @digitChar_mem_range (n % 10)
  split
  · exact colon_not_mem_fmtNat _
  · split <;> intro hm <;>
      rcases List.mem_append.mp hm with hm | hm
    · exact colon_not_mem_fmtNat _ hm
    · simp only [List.mem_cons, List.mem_singleton, List.not_mem_nil, or_false] at hm
      rcases hm with hm | hm
      · exact absurd hm (by decide)
      · rw [← hm] at h1; revert h1; decide
    · exact colon_not_mem_fmtNat _ hm
    · simp only [List.mem_cons, List.not_mem_nil, or_false] at hm
      rcases hm with hm | hm | hm
      · exact absurd hm (by decide)
      · rw [← hm] at h1; revert h1; decide
      · rw [← hm] at h2; revert h2; decide

theorem fmtCentsNat_ne_nil (n : ℕ) : fmtCentsNat n ≠ [] := by
  unfold fmtCentsNat
  split
  · exact fmtNat_ne_nil _
  · split <;> intro hh <;>
      exact fmtNat_ne_nil _ (List.append_eq_nil.mp hh).1

theorem fmtCents_injective : Function.Injective fmtCents := by
  intro a b h
  unfold fmtCents at h
  have hha : ∀ m : ℕ, ∀ l, fmtCentsNat m ≠ '-' :: l := by
    intro m l hl
    exact absurd (hl ▸ List.mem_cons_self '-' l) (dash_not_mem_fmtCentsNat m)
  by_cases ha : a < 0 <;> by_cases hb : b < 0
  · simp only [if_pos ha, if_pos hb, List.singleton_append, List.cons.injEq,
      true_and] at h
    have := fmtCentsNat_injective h
    omega
  · simp only [if_pos ha, if_neg hb, List.singleton_append, List.nil_append] at h
    exact absurd h.symm (hha _ _)
  · simp only [if_neg ha, if_pos hb, List.singleton_append, List.nil_append] at h
    exact absurd h (hha _ _)
  · simp only [if_neg ha, if_neg hb, List.nil_append] at h
    have := fmtCentsNat_injective h
    omega

theorem colon_not_mem_fmtCents (c : ℤ) : ':' ∉ fmtCents c := by
  unfold fmtCents
  intro hm
  rcases List.mem_append.mp hm with hm | hm
  · revert hm; split <;> simp_all
  · exact colon_not_mem_fmtCentsNat _ hm

/-- Exactness of the truncation on the embedding's two-fractional-digit
amounts: the mapped amount is exactly the signed amount times 1000,
i.e. ten times the signed count of hundredths. -/
theorem mappedAmount_eq (t : YonderTransaction) :
    mappedAmount t =
      match t.kind with
      | .Debit => -(10 * t.amount_gbp)
      | .Credit => 10 * t.amount_gbp := by
  have hint : ∀ n : ℤ, ratTruncToInt (n : ℚ) = n := by
    intro n
    simp [ratTruncToInt]
  unfold mappedAmount signedGbp
  rcases t.kind with _ | _ <;> simp only
  · have : -((t.amount_gbp : ℚ) / 100) * 1000 = ((-(10 * t.amount_gbp) : ℤ) : ℚ) := by
      push_cast
      ring
    rw [this, hint]
  · have : ((t.amount_gbp : ℚ) / 100) * 1000 = (((10 * t.amount_gbp) : ℤ) : ℚ) := by
      push_cast
      ring
    rw [this, hint]

/-! ## Length bounds for the rendered key components -/

theorem natCharsAux_length_le {fuel n k : ℕ} (hn : n < 10 ^ k) (hk : 0 < k) :
    (natCharsAux fuel n).length ≤ k := by
  induction fuel generalizing n k with
  | zero => simp [natCharsAux]
  | succ f ih =>
    rw [natCharsAux]
    by_cases h10 : n < 10
    · rw [if_pos h10]
      simpa using hk
    · simp only [if_neg h10, List.length_append, List.length_singleton]
      have hk2 : 2 ≤ k := by
        by_contra hlt
        have : k = 1 := by omega
        subst this
        simp at hn
        omega
      have hdiv : n / 10 < 10 ^ (k - 1) := by
        have h1 : 10 ^ k = 10 ^ (k - 1) * 10 := by
          rw [← pow_succ]
          congr 1
          omega
        rw [h1] at hn
        omega
      have := ih hdiv (by omega)
      omega

theorem fmtNat_length_le {n k : ℕ} (hn : n < 10 ^ k) (hk : 0 < k) :
    (fmtNat n).length ≤ k := natCharsAux_length_le hn hk

theorem fmtCentsNat_length_le {n k : ℕ} (hn : n < 10 ^ (k + 2)) (hk : 0 < k) :
    (fmtCentsNat n).length ≤ k + 3 := by
  unfold fmtCentsNat
  have hq : n / 100 < 10 ^ k := by
    have h1 : 10 ^ (k + 2) = 10 ^ k * 100 := by ring
    rw [h1] at hn
    omega
  have hfq := fmtNat_length_le hq hk
  split
  · omega
  · split <;> simp only [List.length_append, List.length_cons] <;> simp <;> omega

theorem fmtInt_length_le {i : ℤ} {k : ℕ} (hi : 0 ≤ i) (hn : i < 10 ^ k)
    (hk : 0 < k) : (fmtInt i).length ≤ k := by
  unfold fmtInt
  rw [if_neg (by omega), List.nil_append]
  refine fmtNat_length_le ?_ hk
  have : (i.natAbs : ℤ) < 10 ^ k := by
    rw [Int.natAbs_of_nonneg hi]
    exact_mod_cast hn
  exact_mod_cast this

theorem fmtCents_length_le {c : ℤ} {k : ℕ} (hc : 0 ≤ c) (hn : c < 10 ^ (k + 2))
    (hk : 0 < k) : (fmtCents c).length ≤ k + 3 := by
  unfold fmtCents
  rw [if_neg (by omega), List.nil_append]
  refine fmtCentsNat_length_le ?_ hk
  have : (c.natAbs : ℤ) < 10 ^ (k + 2) := by
    rw [Int.natAbs_of_nonneg hc]
    exact_mod_cast hn
  exact_mod_cast this

theorem collectResults_map_ok {ε α : Type} (res : List α) :
    collectResults (ε := ε) (res.map Except.ok) = .ok res := by
  induction res with
  | nil => rfl
  | cons r rs ih => simp [collectResults, ih]

theorem collectResults_ok_imp {ε α : Type} {l : List (Except ε α)} {res : List α}
    (h : collectResults l = .ok res) : l = res.map Except.ok := by
  induction l generalizing res with
  | nil =>
    simp only [collectResults, Except.ok.injEq] at h
    subst h
    rfl
  | cons x xs ih =>
    rcases x with e | a
    · simp [collectResults] at h
    · rcases hc : collectResults xs with e | ll
      · simp [collectResults, hc] at h
      · simp only [collectResults, hc, Except.ok.injEq] at h
        subst h
        rw [List.map_cons, ih hc]

theorem collectResults_ok_iff {ε α : Type} (l : List (Except ε α)) (res : List α) :
    collectResults l = .ok res ↔ l = res.map Except.ok := by
  constructor
  · exact collectResults_ok_imp
  · intro h
    subst h
    exact collectResults_map_ok res

theorem collectResults_error_of_mem {ε α : Type} {l : List (Except ε α)}
    {e : ε} (h : Except.error e ∈ l) :
    ∃ e', collectResults l = .error e' := by
  induction l with
  | nil => simp at h
  | cons x xs ih =>
    rcases List.mem_cons.mp h with hx | hx
    · exact ⟨e, by rw [← hx]; rfl⟩
    · rcases x with e₀ | a
      · exact ⟨e₀, rfl⟩
      · obtain ⟨e', he'⟩ := ih hx
        refine ⟨e', ?_⟩
        simp only [collectResults, he']

/-- On nonnegative rationals the truncation toward zero is the floor. -/
theorem ratTruncToInt_eq_floor {q : ℚ} (h : 0 ≤ q) : ratTruncToInt q = ⌊q⌋ := by
  unfold ratTruncToInt
  rw [Rat.floor_def]
  have hnum : 0 ≤ q.num := Rat.num_nonneg.mpr h
  lift q.num to ℕ using hnum with m
  rfl

/-- The truncation is the identity on integers. -/
theorem ratTruncToInt_intCast (n : ℤ) : ratTruncToInt (n : ℚ) = n := by
  simp [ratTruncToInt]

/-! ## Claim theorems -/

/-- The dedup key determines the amount and the millisecond epoch value. -/
theorem yonderImportId_components {t₁ t₂ : YonderTransaction}
    (heq : yonderImportId t₁ = yonderImportId t₂) :
    t₁.amount_gbp = t₂.amount_gbp ∧
    t₁.date_time.timestampMillis = t₂.date_time.timestampMillis := by
  unfold yonderImportId at heq
  have hl : yonderImportIdChars t₁ = yonderImportIdChars t₂ := by
    injection heq
  unfold yonderImportIdChars at hl
  simp only [List.cons.injEq, true_and] at hl
  obtain ⟨hA, hB⟩ := append_delim_inj (colon_not_mem_fmtCents _)
    (colon_not_mem_fmtCents _) hl
  exact ⟨fmtCents_injective hA, fmtInt_injective hB⟩

/-- C2 (amended): the import identifier is injective on the pair
(amount, millisecond-truncated instant) — not on the raw instant, whose
sub-millisecond digits are dropped — and identical for two submissions of
the same source row. -/
theorem yonderImportId_injective_on_amount_millis (t₁ t₂ : YonderTransaction) :
    ((t₁.amount_gbp, t₁.date_time.timestampMillis) ≠
        (t₂.amount_gbp, t₂.date_time.timestampMillis) →
      yonderImportId t₁ ≠ yonderImportId t₂) ∧
    (t₁ = t₂ → yonderImportId t₁ = yonderImportId t₂) := by
  constructor
  · intro hne heq
    obtain ⟨h₁, h₂⟩ := yonderImportId_components heq
    exact hne (by rw [h₁, h₂])
  · intro h
    rw [h]

/-- C2 witness: two concrete rows with distinct (amount, millisecond) pairs
get distinct keys, and re-mapping the fixture row reproduces its key. -/
theorem yonderImportId_injective_on_amount_millis_witness :
    yonderImportId tflRow ≠ yonderImportId row201 ∧
    yonderImportId tflRow = yonderImportId tflRow :=
  ⟨(yonderImportId_injective_on_amount_millis tflRow row201).1 (by decide),
   (yonderImportId_injective_on_amount_millis tflRow tflRow).2 rfl⟩

/-- C2 counterexample: the claim's injectivity on (amount, instant) fails —
the fixture row and the same row one microsecond later are distinct
(amount, instant) pairs, yet their import identifiers coincide, because the
key only keeps the millisecond-truncated epoch value. -/
theorem yonderImportId_submillisecond_collision :
    (tflRow.amount_gbp, tflRow.date_time) ≠
      (tflRowMicro.amount_gbp, tflRowMicro.date_time) ∧
    yonderImportId tflRow = yonderImportId tflRowMicro := by
  constructor
  · decide
  · decide

/-- C3 (amended): the import identifier is shorter than 36 characters for
every row whose amount is nonnegative and below 10^13 pounds (10^15
hundredths) and whose timestamp's millisecond epoch value is nonnegative and
below 10^15 (all dates from 1970 through the year 33658). -/
theorem yonderImportId_length_lt_36 (t : YonderTransaction)
    (hc₀ : 0 ≤ t.amount_gbp) (hc₁ : t.amount_gbp < 10 ^ 15)
    (hm₀ : 0 ≤ t.date_time.timestampMillis)
    (hm₁ : t.date_time.timestampMillis < 10 ^ 15) :
    (yonderImportId t).length < 36 := by
  have hcents : (fmtCents t.amount_gbp).length ≤ 16 :=
    fmtCents_length_le (k := 13) hc₀ (by exact_mod_cast hc₁) (by norm_num)
  have hmill : (fmtInt t.date_time.timestampMillis).length ≤ 15 :=
    fmtInt_length_le (k := 15) hm₀ (by exact_mod_cast hm₁) (by norm_num)
  have hlen : (yonderImportId t).length = (yonderImportIdChars t).length := rfl
  rw [hlen]
  unfold yonderImportIdChars
  simp only [List.length_cons, List.length_append]
  omega

/-- C3 witness: the key length bound applied to the fixture row. -/
theorem yonderImportId_length_lt_36_witness : (yonderImportId tflRow).length < 36 :=
  yonderImportId_length_lt_36 tflRow (by decide) (by decide) (by decide) (by decide)

/-- C3 counterexample: the claim's unconditional bound fails — the decoder
accepts a row with amount `1000000000000000000000000000000.00`, and that
row's import identifier has 48 characters. -/
theorem yonderImportId_length_counterexample :
    decodeYonderCsv [yonderHeader, bigRowFields] = .ok [bigRow] ∧
    ¬ (yonderImportId bigRow).length < 36 := by
  constructor
  · decide
  · decide

/-- C4: the fixture row (timestamp 2026-01-01T10:34:50.211697, description
"TFL - Transport for London", amount 3.00, Debit) maps to amount −3000,
date 2026-01-01, payee "TFL - Transport for London", import identifier
exactly "TG:3:1767263690211". -/
theorem tflRow_mapping_pinned :
    (NewTransaction.fromYonder tflRow).amount = some (-3000) ∧
    (NewTransaction.fromYonder tflRow).date = some ⟨2026, 1, 1⟩ ∧
    (NewTransaction.fromYonder tflRow).payee_name =
      some "TFL - Transport for London" ∧
    (NewTransaction.fromYonder tflRow).import_id = some "TG:3:1767263690211" := by
    refine ⟨?_, by decide, by decide, by decide⟩
    show some (mappedAmount tflRow) = some (-3000)
    rw [mappedAmount_eq]
    decide

/-- C5: for a nonnegative source amount the mapped amount is nonpositive on
Debit, nonnegative on Credit, and zero exactly when the source magnitude is
zero. -/
theorem mappedAmount_sign_correctness (t : YonderTransaction)
    (h : 0 ≤ t.amount_gbp) :
    (t.kind = .Debit → mappedAmount t ≤ 0) ∧
    (t.kind = .Credit → 0 ≤ mappedAmount t) ∧
    (mappedAmount t = 0 ↔ t.amount_gbp = 0) := by
  have hm := mappedAmount_eq t
  rcases hkind : t.kind <;> rw [hkind] at hm <;> simp only at hm
  · refine And.intro ?_ (And.intro ?_ ?_)
    · intro _
      omega
    · intro hc
      exact absurd hc (by decide)
    · omega
  · refine And.intro ?_ (And.intro ?_ ?_)
    · intro hc
      exact absurd hc (by decide)
    · intro _
      omega
    · omega

/-- C5 witness: the sign property at the Debit fixture row. -/
theorem mappedAmount_sign_correctness_witness :
    mappedAmount tflRow ≤ 0 ∧ ¬ mappedAmount tflRow = 0 := by
  have h := mappedAmount_sign_correctness tflRow (by decide)
  refine ⟨h.1 rfl, fun hz => ?_⟩
  have := h.2.2.mp hz
  revert this
  decide

/-- C1: at source amount 2.01 the code's floating-point computation loses a
minor unit.  The exact mapper semantics (and the claim) give
trunc(2.01 × 1000) = 2010; the code computes `(2.01_f64 * 1000.0) as i64`,
whose two correctly-rounded binary64 steps — certified here by the half-ulp
bounds (ulp 2^(-51) on [2,4), ulp 2^(-42) on [1024,2048)) — yield
2009.9999999999998, truncating to 2009. -/
theorem mappedAmount_float_truncation_drops_minor_unit :
    mappedAmount row201 = 2010 ∧
    ratTruncToInt ((201 : ℚ) / 100 * 1000) = 2010 ∧
    |(201 : ℚ) / 100 - f64Of201| ≤ 1 / 2 ^ 52 ∧
    roundF64Grid 42 (f64Of201 * 1000) = 8840073487319039 / 2 ^ 42 ∧
    |f64Of201 * 1000 - roundF64Grid 42 (f64Of201 * 1000)| ≤ 1 / 2 ^ 43 ∧
    ratTruncToInt (roundF64Grid 42 (f64Of201 * 1000)) = 2009 ∧
    (2009 : ℤ) ≠ 2010 := by
  have hr : round (f64Of201 * 1000 * (2 : ℚ) ^ (42 : ℕ)) = 8840073487319039 := by
    unfold f64Of201
    rw [round_eq, Int.floor_eq_iff]
    constructor <;> norm_num
  have hg : roundF64Grid 42 (f64Of201 * 1000) = 8840073487319039 / 2 ^ 42 := by
    unfold roundF64Grid
    rw [hr]
    norm_num
  refine ⟨?_, ?_, ?_, hg, ?_, ?_, by decide⟩
  · rw [mappedAmount_eq]
    decide
  · rw [show (201 : ℚ) / 100 * 1000 = ((2010 : ℤ) : ℚ) by norm_num,
      ratTruncToInt_intCast]
  · unfold f64Of201
    rw [abs_le]
    constructor <;> norm_num
  · rw [hg]
    unfold f64Of201
    rw [abs_le]
    constructor <;> norm_num
  · rw [hg, ratTruncToInt_eq_floor (by norm_num), Int.floor_eq_iff]
    constructor <;> norm_num

/-- C6: the record mapping is total — the two string conversions the code
unwraps never fail (modelled from the spec, see `parseLedgerString`), the
description is copied verbatim into the payee regardless of content or
length, and the caller-supplied account identifier is injected as given. -/
theorem fromYonder_total_no_failure (t : YonderTransaction) (acc : String) :
    NewTransaction.fromYonderChecked t = some (NewTransaction.fromYonder t) ∧
    (NewTransaction.fromYonder t).payee_name = some t.description ∧
    ((NewTransaction.fromYonder t).withAccount acc).account_id = some acc :=
  ⟨rfl, rfl, rfl⟩

/-- C7: the decoder is all-or-nothing — when it succeeds, the parsed rows
are exactly the per-row results in order, and when any row fails the whole
decode returns a single error (never a partial sequence). -/
theorem decodeYonderCsv_all_or_nothing (hdr : List String)
    (rows : List (List String)) :
    (∀ ts, decodeYonderCsv (hdr :: rows) = .ok ts →
      rows.map (parseRow hdr) = ts.map Except.ok) ∧
    (∀ r ∈ rows, ∀ e, parseRow hdr r = .error e →
      ∃ e', decodeYonderCsv (hdr :: rows) = .error e') := by
  constructor
  · intro ts h
    exact collectResults_ok_imp h
  · intro r hr e he
    exact collectResults_error_of_mem (he ▸ List.mem_map_of_mem (parseRow hdr) hr)

/-- C7 witness: the fixture row decodes to exactly the fixture record, and a
batch containing a row with a misspelled direction is rejected whole. -/
theorem decodeYonderCsv_all_or_nothing_witness :
    [tflRowFields].map (parseRow yonderHeader) = [tflRow].map Except.ok ∧
    ∃ e', decodeYonderCsv (yonderHeader :: [tflRowFields, badKindRowFields]) =
      .error e' :=
  ⟨(decodeYonderCsv_all_or_nothing yonderHeader [tflRowFields]).1 [tflRow]
      (by decide),
   (decodeYonderCsv_all_or_nothing yonderHeader [tflRowFields, badKindRowFields]).2
      badKindRowFields (by decide) "unknown variant: Dbit" (by decide)⟩

/-- C8 (amended): when the remote bulk-create response reports `m` created
transaction IDs and `n` duplicate import IDs, the pipeline returns
`DocumentResult {imported: m, duplicates: n}`, rendered as the two-line text
`Imported new transactions: m\nSkipped duplicate transactions: n`. -/
theorem importResult_counts_and_display (lines : List (List String))
    (config : Config)
    (submit : List NewTransaction → Except String SaveTransactionsResponseData)
    (yts : List YonderTransaction) (d : SaveTransactionsResponseData)
    (hdec : decodeYonderCsv lines = .ok yts)
    (hsub : submit (yts.map
        (fun t => (NewTransaction.fromYonder t).withAccount config.ynab_account_id))
      = .ok d) :
    importYonderCsvToYnab lines config submit =
      .ok ⟨d.transaction_ids.length, d.duplicate_import_ids.length⟩ ∧
    (documentResultOfResponse d).display =
      "Imported new transactions: " ++ String.mk (fmtNat d.transaction_ids.length)
        ++ "\nSkipped duplicate transactions: "
        ++ String.mk (fmtNat d.duplicate_import_ids.length) := by
  constructor
  · unfold importYonderCsvToYnab
    rw [hdec]
    simp only
    rw [hsub]
    rfl
  · rfl

/-- C8 witness: a response with one created ID and one duplicate import ID
yields `{imported: 1, duplicates: 1}`, displayed with the code's literal
wording. -/
theorem importResult_counts_and_display_witness :
    importYonderCsvToYnab [] cfgWithKey submitOneDup = .ok ⟨1, 1⟩ ∧
    DocumentResult.display ⟨1, 1⟩ =
      "Imported new transactions: 1\nSkipped duplicate transactions: 1" := by
  have h := importResult_counts_and_display [] cfgWithKey submitOneDup []
    ⟨["t1"], ["d1"]⟩ rfl rfl
  exact ⟨h.1, by decide⟩

/-- C8 counterexample: the rendered text is not the claim's literal
`Imported transactions: 1\nSkipped duplicates: 1` — the code writes
`Imported new transactions: ...` and `Skipped duplicate transactions: ...`. -/
theorem documentResult_display_literal_counterexample :
    DocumentResult.display ⟨1, 1⟩ ≠
      "Imported transactions: 1\nSkipped duplicates: 1" := by
  decide

/-- C9: the record mapper is deterministic — mapping equal source rows gives
equal ledger records in every field, including the import identifier. -/
theorem fromYonder_deterministic (t₁ t₂ : YonderTransaction) (h : t₁ = t₂) :
    NewTransaction.fromYonder t₁ = NewTransaction.fromYonder t₂ ∧
    (NewTransaction.fromYonder t₁).import_id =
      (NewTransaction.fromYonder t₂).import_id := by
  rw [h]
  exact ⟨rfl, rfl⟩

/-- C9 witness: determinism at the fixture row. -/
theorem fromYonder_deterministic_witness :
    NewTransaction.fromYonder tflRow = NewTransaction.fromYonder tflRow ∧
    (NewTransaction.fromYonder tflRow).import_id =
      (NewTransaction.fromYonder tflRow).import_id :=
  fromYonder_deterministic tflRow tflRow rfl

/-- C10: with no webhook API key configured the response is 401 with the
message "Webhook API key is not set" (distinct from the mismatch message),
and on both that path and the mismatched-key path the body is not read and
the pipeline is not invoked. -/
theorem on_webhook_import_auth_guard (config : Config) (api_key : Option String)
    (body : List (List String))
    (submit : List NewTransaction → Except String SaveTransactionsResponseData) :
    (config.webhook_api_key = none →
      on_webhook_import config api_key body submit =
        (.errorText "Webhook API key is not set" 401, false, false)) ∧
    (∀ k, config.webhook_api_key = some k → api_key ≠ some k →
      on_webhook_import config api_key body submit =
        (.errorText "Invalid API key" 401, false, false)) ∧
    ("Webhook API key is not set" : String) ≠ "Invalid API key" := by
  refine ⟨?_, ?_, by decide⟩
  · intro h
    unfold on_webhook_import
    rw [h]
  · intro k hk hne
    unfold on_webhook_import
    rw [hk]
    simp only [ne_eq, ite_not]
    rw [if_neg hne]

/-- C10 witness: the guard at a keyless configuration and at a mismatched
key. -/
theorem on_webhook_import_auth_guard_witness :
    on_webhook_import cfgNoKey none [] submitOneDup =
      (.errorText "Webhook API key is not set" 401, false, false) ∧
    on_webhook_import cfgWithKey (some "wrong") [] submitOneDup =
      (.errorText "Invalid API key" 401, false, false) :=
  ⟨(on_webhook_import_auth_guard cfgNoKey none [] submitOneDup).1 rfl,
   (on_webhook_import_auth_guard cfgWithKey (some "wrong") [] submitOneDup).2.1
      "k" rfl (by decide)⟩
